import Mathlib

/-!
Verification of the core pipeline and scheduler of Copyleft (src/main.py).

The Python code is shallowly embedded.  The processor-chain construction of
ProcessingThread.run becomes a pure function on a configuration record, and
the bounded worker pool becomes a small-step transition system on the counter
state of ProcessingThread, with every emitted Qt signal recorded in a trace
log together with the counter state at the moment of emission.
-/

namespace Copyleft

/-- The processor components that src/main.py imports from init
(WATERMARK_PROCESSOR and friends, lines 29-32).  Their pixel-level behaviour
is irrelevant here; only their identity matters for chain construction. -/
inductive Processor where
  | shadowProcessor
  | watermarkProcessor
  | watermarkLeftLogoProcessor
  | watermarkRightLogoProcessor
  | squareProcessor
  | simpleProcessor
  | marginProcessor
  | paddingToOriginalRatioProcessor
deriving DecidableEq, Repr

/-- Python truthiness of a string, used by the guards
`if ... and layout_type and ...` in main.py lines 125, 128, 133, 136:
a Python string is truthy iff it is non-empty. -/
def pyTruthy (s : String) : Bool := !s.isEmpty

/-- Python substring test `needle in hay` (main.py line 133 uses
`'watermark' in layout_type`). -/
def strContains (hay needle : String) : Bool :=
  (List.range (hay.data.length + 1)).any fun i => needle.data.isPrefixOf (hay.data.drop i)

/-- Modelled from the spec: the configuration accessor contract of
core.entity.config.Config, which is not under src/.  Spec section 6 lists the
values the core reads from it: the layout type string, the three boolean
feature flags, the equivalent-focal-length flag and the output quality. -/
structure Config where
  layout_type : String
  shadow_enabled : Bool
  white_margin_enabled : Bool
  padding_with_original_ratio_enabled : Bool
  use_equivalent_focal_length : Bool
  quality : Nat
deriving DecidableEq, Repr

/-- Modelled from the spec: the layout registry layout_items_dict from init,
which is not under src/.  Spec sections 2 and 6 describe it as a fixed
registry of named layouts keyed by the layout type string, covering the
watermark variants and the square layout. -/
def layout_items_dict : List (String × Processor) := [
  ("watermark", Processor.watermarkProcessor),
  ("watermark_left_logo", Processor.watermarkLeftLogoProcessor),
  ("watermark_right_logo", Processor.watermarkRightLogoProcessor),
  ("square", Processor.squareProcessor)]

/-- Dictionary lookup, `layout_items_dict.get(layout_type)`. -/
def lookupLayout (s : String) : Option Processor :=
  (layout_items_dict.find? fun p => p.1 == s).map Prod.snd

/-- Chain construction performed by ProcessingThread.run, main.py
lines 123-137.  ProcessorChain.add appends to the ordered component list
(modelled from the spec for core.entity.image_processor, not under src/:
insertion order is execution order, spec section 3). -/
def buildProcessorChain (c : Config) : List Processor :=
  (if c.shadow_enabled && pyTruthy c.layout_type && !(c.layout_type == "square")
    then [Processor.shadowProcessor] else []) ++
  (if pyTruthy c.layout_type && (lookupLayout c.layout_type).isSome
    then (lookupLayout c.layout_type).toList
    else [Processor.simpleProcessor]) ++
  (if c.white_margin_enabled && pyTruthy c.layout_type && strContains c.layout_type "watermark"
    then [Processor.marginProcessor] else []) ++
  (if c.padding_with_original_ratio_enabled && pyTruthy c.layout_type && !(c.layout_type == "square")
    then [Processor.paddingToOriginalRatioProcessor] else [])

/-- The four-step construction algorithm exactly as claim C1 and spec
section 4.2 state it: Shadow when shadow is enabled and the layout is not
square; then the component matching the layout type, or Simple when none
matches; then Margin when white-margin is enabled and the layout type contains
"watermark"; then PaddingToOriginalRatio when enabled and the layout is not
square. -/
def specChain (c : Config) : List Processor :=
  (if c.shadow_enabled && !(c.layout_type == "square")
    then [Processor.shadowProcessor] else []) ++
  (match lookupLayout c.layout_type with
    | some p => [p]
    | none => [Processor.simpleProcessor]) ++
  (if c.white_margin_enabled && strContains c.layout_type "watermark"
    then [Processor.marginProcessor] else []) ++
  (if c.padding_with_original_ratio_enabled && !(c.layout_type == "square")
    then [Processor.paddingToOriginalRatioProcessor] else [])

/-- The construction algorithm as amended: the Shadow and
PaddingToOriginalRatio steps additionally require the layout type to be
non-empty (the Python truthiness guard of main.py lines 125 and 136). -/
def specChainAmended (c : Config) : List Processor :=
  (if c.shadow_enabled && pyTruthy c.layout_type && !(c.layout_type == "square")
    then [Processor.shadowProcessor] else []) ++
  (match lookupLayout c.layout_type with
    | some p => [p]
    | none => [Processor.simpleProcessor]) ++
  (if c.white_margin_enabled && strContains c.layout_type "watermark"
    then [Processor.marginProcessor] else []) ++
  (if c.padding_with_original_ratio_enabled && pyTruthy c.layout_type && !(c.layout_type == "square")
    then [Processor.paddingToOriginalRatioProcessor] else [])

/-- A configuration with shadow enabled and an empty layout type. -/
def cfgEmptyLayout : Config :=
  { layout_type := ""
    shadow_enabled := true
    white_margin_enabled := false
    padding_with_original_ratio_enabled := false
    use_equivalent_focal_length := false
    quality := 100 }

theorem lookupLayout_empty : lookupLayout "" = none := by decide

theorem strContains_empty_watermark : strContains "" "watermark" = false := by decide

/-- C1 counterexample: with an empty layout type (which is not "square") and
shadow enabled, the code builds [Simple] while the claimed four-step algorithm
builds [Shadow, Simple]: the truthiness guard in main.py line 125 skips the
Shadow component. -/
theorem buildChain_ne_specChain_on_cfgEmptyLayout :
    buildProcessorChain cfgEmptyLayout ≠ specChain cfgEmptyLayout ∧
    buildProcessorChain cfgEmptyLayout = [Processor.simpleProcessor] ∧
    specChain cfgEmptyLayout = [Processor.shadowProcessor, Processor.simpleProcessor] := by
  decide

/-- C1 as amended: for every configuration the built chain follows the
four-step algorithm with the Shadow and PaddingToOriginalRatio steps also
requiring a non-empty layout type. -/
theorem buildChain_eq_specChainAmended (c : Config) :
    buildProcessorChain c = specChainAmended c := by
  by_cases h : c.layout_type = ""
  · have h1 : pyTruthy c.layout_type = false := by
      simp [pyTruthy, h, String.isEmpty_iff]
    simp [buildProcessorChain, specChainAmended, h1, h,
      lookupLayout_empty, strContains_empty_watermark]
  · have h0 : c.layout_type.isEmpty = false := by
      cases he : c.layout_type.isEmpty
      · rfl
      · exact absurd ((String.isEmpty_iff _).mp he) h
    have h1 : pyTruthy c.layout_type = true := by
      simp [pyTruthy, h0]
    cases ho : lookupLayout c.layout_type with
    | none => simp [buildProcessorChain, specChainAmended, h1, ho]
    | some p => simp [buildProcessorChain, specChainAmended, h1, ho, Option.toList]

/-- The per-run counters of ProcessingThread (main.py lines 140-144), together
with two bookkeeping fields forced by the concurrency structure of the code:
pendingStart counts files already taken from the queue by _start_next_worker
(self.queued was decremented, line 203) whose worker has not yet run
started.emit / _on_worker_started (lines 59, 217-219), and unrecorded counts
workers that finish after stop() disconnected their signals
(lines 249-266), so that no handler records their completion. -/
structure Counters where
  queued : Nat
  pendingStart : Nat
  processing : Nat
  processed : Nat
  failed : Nat
  unrecorded : Nat
deriving DecidableEq, Repr

/-- Counter initialisation, main.py lines 140-143. -/
def initCounters (total : Nat) : Counters :=
  { queued := total, pendingStart := 0, processing := 0,
    processed := 0, failed := 0, unrecorded := 0 }

/-- Rate computation of main.py lines 165-166 and 181-182, with exact rational
arithmetic in place of Python floats. -/
def computeRate (processed : Nat) (elapsed : ℚ) : ℚ :=
  if 0 < elapsed then (processed : ℚ) / elapsed else 0

/-- Progress computation of main.py line 170,
int(((processed + failed) / total_files) * 100), with exact integer
arithmetic: Nat division is the floor of the exact quotient, which is what
int() of the exact real value yields. -/
def computeProgress (processed failed total : Nat) : Nat :=
  (processed + failed) * 100 / total

/-- The Qt signals of ProcessingThread (main.py lines 92-95).  stats_updated
carries exactly four payload values: queued, processing, processed, rate. -/
inductive Sig where
  | statsSig (queued processing processed : Nat) (rate : ℚ)
  | progressSig (v : Nat)
  | errorSig (msg : String)
  | finishedSig
deriving DecidableEq, Repr

/-- Scheduler state: the counters, the cooperative stop flag
(main.py line 103), and the trace of emitted signals, each paired with the
counter state at the moment of emission. -/
structure RState where
  cs : Counters
  stopFlag : Bool
  log : List (Counters × Sig)
deriving DecidableEq, Repr

/-- ProcessingThread._start_next_worker, main.py lines 197-215: a no-op when
the queue is empty or the stop flag is set; otherwise one file leaves the
queue and is handed to the thread pool (its started handler has not yet run).
self.queued mirrors the length of file_queue: both are decremented together
(lines 202-203) from the same initial value. -/
def dispatchNext (s : RState) : RState :=
  if s.cs.queued = 0 ∨ s.stopFlag = true then s
  else { s with
    cs := { s.cs with
      queued := s.cs.queued - 1,
      pendingStart := s.cs.pendingStart + 1 } }

/-- The initial dispatch loop of main.py lines 155-157, n iterations. -/
def initialDispatch : Nat → RState → RState
  | 0, s => s
  | n + 1, s => initialDispatch n (dispatchNext s)

/-- State at entry of the statistics loop (main.py lines 139-157): counters
initialised, all files queued, then min(5, queued) initial dispatches. -/
def startState (total : Nat) : RState :=
  initialDispatch (min 5 total) { cs := initCounters total, stopFlag := false, log := [] }

/-- _on_worker_started, main.py lines 217-219. -/
def startedUpdate (c : Counters) : Counters :=
  { c with pendingStart := c.pendingStart - 1, processing := c.processing + 1 }

/-- State change when a dispatched worker begins running: started.emit
(line 59) and its handler _on_worker_started (lines 217-219). -/
def startedRes (s : RState) : RState := { s with cs := startedUpdate s.cs }

/-- Counter part of _on_worker_finished, main.py lines 221-224. -/
def finishedUpdate (c : Counters) : Counters :=
  { c with processing := c.processing - 1, processed := c.processed + 1 }

/-- Counter part of _on_worker_error, main.py lines 238-241. -/
def errorUpdate (c : Counters) : Counters :=
  { c with processing := c.processing - 1, failed := c.failed + 1 }

/-- One body iteration of the statistics loop, main.py lines 160-174: it
emits the stats snapshot (line 167) and then the progress value (line 171). -/
def pollResult (total : Nat) (s : RState) (elapsed : ℚ) : RState :=
  { s with log := s.log ++
      [(s.cs, Sig.statsSig s.cs.queued s.cs.processing s.cs.processed
          (computeRate s.cs.processed elapsed)),
       (s.cs, Sig.progressSig (computeProgress s.cs.processed s.cs.failed total))] }

/-- _on_worker_finished, main.py lines 221-236: counter update, then
_start_next_worker.  No signal is emitted. -/
def okResult (s : RState) : RState :=
  dispatchNext { s with cs := finishedUpdate s.cs }

/-- _on_worker_error, main.py lines 238-247: counter update, then
error_occurred.emit, then _start_next_worker. -/
def errResult (s : RState) (msg : String) : RState :=
  dispatchNext { s with
    cs := errorUpdate s.cs,
    log := s.log ++ [(errorUpdate s.cs, Sig.errorSig msg)] }

/-- ProcessingThread.stop, main.py lines 262-266: set the stop flag (the
signal disconnections it performs are reflected by the drain steps below). -/
def stopResult (s : RState) : RState := { s with stopFlag := true }

/-- A worker dispatched before stop() runs to its end after stop():
its signals were disconnected by _cleanup_workers, so no counter records
the completion. -/
def drainStartRes (s : RState) : RState :=
  { s with
    cs := { s.cs with
      pendingStart := s.cs.pendingStart - 1,
      unrecorded := s.cs.unrecorded + 1 } }

/-- A worker whose started handler ran before stop() finishes after stop():
its finished or error signal was disconnected, so no counter records it. -/
def drainProcRes (s : RState) : RState :=
  { s with
    cs := { s.cs with
      processing := s.cs.processing - 1,
      unrecorded := s.cs.unrecorded + 1 } }

/-- Interleaving events of the run: pool workers starting and terminating,
the coordinator's polling iteration, a stop request, and post-stop worker
terminations whose handlers were disconnected. -/
inductive Ev where
  | workerStartEv
  | workerOkEv
  | workerErrEv (msg : String)
  | pollEv (elapsed : ℚ)
  | stopEv
  | drainStartEv
  | drainProcEv
deriving DecidableEq, Repr

def Ev.isPoll : Ev → Bool
  | .pollEv _ => true
  | _ => false

/-- One interleaving step of the run for a fixed total file count.  Signal
handlers are taken as atomic: they all execute on the single GUI thread under
the Python GIL, serialised by the Qt event loop; the coordinator loop body
(main.py lines 160-174) is one pollEv step, enabled exactly under the loop
guard of line 160 with the stop check of line 161. -/
inductive Step (total : Nat) : RState → Ev → RState → Prop where
  | workerStart (s : RState) (h1 : s.stopFlag = false) (h2 : 0 < s.cs.pendingStart) :
      Step total s .workerStartEv (startedRes s)
  | workerOk (s : RState) (h1 : s.stopFlag = false) (h2 : 0 < s.cs.processing) :
      Step total s .workerOkEv (okResult s)
  | workerErr (s : RState) (msg : String) (h1 : s.stopFlag = false) (h2 : 0 < s.cs.processing) :
      Step total s (.workerErrEv msg) (errResult s msg)
  | poll (s : RState) (elapsed : ℚ) (hg : 0 < s.cs.processing ∨ 0 < s.cs.queued)
      (h1 : s.stopFlag = false) (he : 0 ≤ elapsed) :
      Step total s (.pollEv elapsed) (pollResult total s elapsed)
  | stop (s : RState) : Step total s .stopEv (stopResult s)
  | drainStart (s : RState) (h1 : s.stopFlag = true) (h2 : 0 < s.cs.pendingStart) :
      Step total s .drainStartEv (drainStartRes s)
  | drainProc (s : RState) (h1 : s.stopFlag = true) (h2 : 0 < s.cs.processing) :
      Step total s .drainProcEv (drainProcRes s)

/-- Reflexive-transitive closure of Step. -/
inductive Steps (total : Nat) : RState → RState → Prop where
  | refl (s : RState) : Steps total s s
  | tail {s t u : RState} {e : Ev} (h : Steps total s t) (st : Step total t e u) :
      Steps total s u

/-- Steps without polling: after the statistics loop exits, the coordinator
sits in waitForDone (main.py line 177) and emits nothing, while workers and
handlers keep running. -/
inductive PostSteps (total : Nat) : RState → RState → Prop where
  | refl (s : RState) : PostSteps total s s
  | tail {s t u : RState} {e : Ev} (h : PostSteps total s t) (st : Step total t e u)
      (hp : e.isPoll = false) : PostSteps total s u

/-- A state the run can be in during the statistics loop. -/
def Reachable (total : Nat) (s : RState) : Prop := Steps total (startState total) s

/-- The final progress value of main.py line 180:
100 if processed + failed == total else 0. -/
def finalProgressValue (total : Nat) (c : Counters) : Nat :=
  if c.processed + c.failed = total then 100 else 0

/-- Final emissions of main.py lines 179-187: the final progress value
(line 180), the final snapshot stats_updated.emit(0, 0, processed, rate)
(line 183) with queued and processing hard-coded to zero, and
processing_finished only when the stop flag is unset (lines 186-187). -/
def finalEmissions (total : Nat) (s : RState) (elapsed : ℚ) : RState :=
  { s with log := s.log ++
      [(s.cs, Sig.progressSig (finalProgressValue total s.cs)),
       (s.cs, Sig.statsSig 0 0 s.cs.processed (computeRate s.cs.processed elapsed))] ++
      (if s.stopFlag = false then [(s.cs, Sig.finishedSig)] else []) }

theorem finalEmissions_log (total : Nat) (s : RState) (elapsed : ℚ) :
    (finalEmissions total s elapsed).log = s.log ++
      [(s.cs, Sig.progressSig (finalProgressValue total s.cs)),
       (s.cs, Sig.statsSig 0 0 s.cs.processed (computeRate s.cs.processed elapsed))] ++
      (if s.stopFlag = false then [(s.cs, Sig.finishedSig)] else []) := rfl

/-- A complete run of ProcessingThread.run for a positive file count: the
statistics loop runs from the start state until its guard fails or the stop
flag is observed (lines 160-162), then waitForDone (line 177) blocks until
every pool thread has returned, and then the final emissions happen.
waitForDone guarantees only worker-thread termination: the cross-thread
queued handler invocations (started / finished / error run on the main GUI
thread, the worker signals having been moved there at line 47) can still be
pending when lines 179-183 read the counters, so pendingStart and processing
may be non-zero at the final emissions of a never-cancelled run.  After
stop() the handlers are disconnected outright, so there worker-thread
termination is all there is: every dispatched worker has drained to its
unrecorded end by the time waitForDone returns, hence the flush condition
holds exactly in the stopped case. -/
def CompleteRun (total : Nat) (sF : RState) (elapsed : ℚ) : Prop :=
  0 ≤ elapsed ∧ ∃ sExit sDone : RState,
    Reachable total sExit ∧
    (sExit.stopFlag = true ∨ (sExit.cs.processing = 0 ∧ sExit.cs.queued = 0)) ∧
    PostSteps total sExit sDone ∧
    (sDone.stopFlag = true → sDone.cs.pendingStart = 0 ∧ sDone.cs.processing = 0) ∧
    sF = finalEmissions total sDone elapsed

/-- ProcessingThread.run at top level (main.py lines 108-187): with zero
files it emits processing_finished and returns before building any chain
(lines 119-121); otherwise it builds the processor chain from the
configuration and executes a complete scheduled run. -/
inductive RunTrace (cfg : Config) : Nat → Option (List Processor) → List (Counters × Sig) → Prop where
  | empty : RunTrace cfg 0 none [(initCounters 0, Sig.finishedSig)]
  | nonempty {total : Nat} {sF : RState} {elapsed : ℚ} (h : 0 < total)
      (hc : CompleteRun total sF elapsed) :
      RunTrace cfg total (some (buildProcessorChain cfg)) sF.log

/-- The emitted progress payload values of a trace, in order. -/
def progressValues (log : List (Counters × Sig)) : List Nat :=
  log.filterMap fun e => match e.2 with | .progressSig v => some v | _ => none

/-- Number of stats snapshots in a trace. -/
def countStats (log : List (Counters × Sig)) : Nat :=
  (log.filter fun e => match e.2 with | .statsSig _ _ _ _ => true | _ => false).length

/-- Container operations performed by ImageWorker.run (main.py lines 52-77),
in program order: ImageContainer(source_path), is_use_equivalent_focal_length,
processor_chain.process, save, close. -/
inductive CAction where
  | openC
  | setFocalC
  | processC
  | saveC
  | closeC
deriving DecidableEq, Repr

/-- The container operations of the guarded block of ImageWorker.run in
program order (main.py lines 62-71). -/
def workerActionSeq : List CAction :=
  [CAction.openC, CAction.setFocalC, CAction.processC, CAction.saveC, CAction.closeC]

/-- Outcome of one file's unit of work: either every operation succeeds, or
the k-th container operation raises an exception whose text is msg. -/
inductive WOutcome where
  | allOk
  | raiseAt (k : Fin 5) (msg : String)

/-- Container operations that actually complete in ImageWorker.run: all of
them on success; on an exception at operation k only the first k complete and
control jumps to the except block (line 75), which performs no container
operation. -/
def runActions : WOutcome → List CAction
  | WOutcome.allOk => workerActionSeq
  | WOutcome.raiseAt k _ => workerActionSeq.take k.val

/-- The worker signals (main.py lines 80-84). -/
inductive WSig where
  | startedSig
  | finishedSig
  | errSig (msg : String)
deriving DecidableEq, Repr

/-- The error message built in main.py line 76. -/
def workerErrorMsg (name cause : String) : String :=
  "处理文件 " ++ name ++ " 时出错: " ++ cause

/-- Signals emitted by ImageWorker.run for one file: started first (line 59),
then finished on success (line 74) or exactly one error signal carrying the
formatted message (lines 75-77). -/
def runSignals (name : String) : WOutcome → List WSig
  | WOutcome.allOk => [WSig.startedSig, WSig.finishedSig]
  | WOutcome.raiseAt _ cause => [WSig.startedSig, WSig.errSig (workerErrorMsg name cause)]

/-- Sum of all counter fields: every file is in exactly one of these buckets. -/
def Counters.sumAll (c : Counters) : Nat :=
  c.queued + c.pendingStart + c.processing + c.processed + c.failed + c.unrecorded

/-- Master invariant of the scheduler, established at the start state and
preserved by every interleaving step. -/
structure Inv (total : Nat) (s : RState) : Prop where
  sumEq : s.cs.sumAll = total
  poolBound : s.cs.pendingStart + s.cs.processing ≤ 5
  unrecStop : s.stopFlag = false → s.cs.unrecorded = 0
  logSum : ∀ c g, (c, g) ∈ s.log → c.sumAll = total
  statsOk : ∀ c q p d r, (c, Sig.statsSig q p d r) ∈ s.log →
    q = c.queued ∧ p = c.processing ∧ d = c.processed ∧ c.unrecorded = 0 ∧
      ∃ e : ℚ, 0 ≤ e ∧ r = computeRate d e
  progOk : ∀ c v, (c, Sig.progressSig v) ∈ s.log →
    v = computeProgress c.processed c.failed total
  progChain : List.Chain' (fun a b => a ≤ b)
    (progressValues s.log ++ [computeProgress s.cs.processed s.cs.failed total])
  noFin : ∀ c, (c, Sig.finishedSig) ∉ s.log

theorem progressValues_append (l1 l2 : List (Counters × Sig)) :
    progressValues (l1 ++ l2) = progressValues l1 ++ progressValues l2 := by
  simp [progressValues, List.filterMap_append]

theorem computeProgress_mono {p f p' f' : Nat} (t : Nat) (h : p + f ≤ p' + f') :
    computeProgress p f t ≤ computeProgress p' f' t :=
  Nat.div_le_div_right (Nat.mul_le_mul_right _ h)

theorem chainLE_replaceLast {l : List Nat} {a b : Nat} (hab : a ≤ b)
    (h : List.Chain' (fun x y => x ≤ y) (l ++ [a])) :
    List.Chain' (fun x y => x ≤ y) (l ++ [b]) := by
  rw [List.chain'_append] at h ⊢
  obtain ⟨h1, _, h3⟩ := h
  refine ⟨h1, List.chain'_singleton b, ?_⟩
  intro x hx y hy
  simp only [List.head?_cons, Option.mem_def, Option.some.injEq] at hy
  subst hy
  exact le_trans (h3 x hx a (by simp)) hab

theorem chainLE_snoc {l : List Nat} {a b : Nat} (hab : a ≤ b)
    (h : List.Chain' (fun x y => x ≤ y) (l ++ [a])) :
    List.Chain' (fun x y => x ≤ y) (l ++ [a] ++ [b]) := by
  rw [List.chain'_append]
  refine ⟨h, List.chain'_singleton b, ?_⟩
  intro x hx y hy
  simp only [List.head?_cons, Option.mem_def, Option.some.injEq] at hy
  subst hy
  rw [List.getLast?_concat] at hx
  simp only [Option.mem_def, Option.some.injEq] at hx
  subst hx
  exact hab

theorem initialDispatch_go (n : Nat) : ∀ q p : Nat,
    initialDispatch n ⟨⟨q, p, 0, 0, 0, 0⟩, false, []⟩ =
    ⟨⟨q - min n q, p + min n q, 0, 0, 0, 0⟩, false, []⟩ := by
  induction n with
  | zero => intro q p; simp [initialDispatch]
  | succ n ih =>
    intro q p
    have hrec : initialDispatch (n + 1) ⟨⟨q, p, 0, 0, 0, 0⟩, false, []⟩ =
        initialDispatch n (dispatchNext ⟨⟨q, p, 0, 0, 0, 0⟩, false, []⟩) := rfl
    rw [hrec]
    by_cases hq : q = 0
    · subst hq
      have hd : dispatchNext ⟨⟨0, p, 0, 0, 0, 0⟩, false, []⟩ =
          ⟨⟨0, p, 0, 0, 0, 0⟩, false, []⟩ := by
        simp [dispatchNext]
      rw [hd, ih 0 p]
      simp
    · have hd : dispatchNext ⟨⟨q, p, 0, 0, 0, 0⟩, false, []⟩ =
          ⟨⟨q - 1, p + 1, 0, 0, 0, 0⟩, false, []⟩ := by
        simp [dispatchNext, hq]
      rw [hd, ih (q - 1) (p + 1)]
      have h1 : q - 1 - min n (q - 1) = q - min (n + 1) q := by omega
      have h2 : p + 1 + min n (q - 1) = p + min (n + 1) q := by omega
      rw [h1, h2]

theorem startState_eq (total : Nat) :
    startState total = ⟨⟨total - min 5 total, min 5 total, 0, 0, 0, 0⟩, false, []⟩ := by
  have h := initialDispatch_go (min 5 total) total 0
  have hmm : min (min 5 total) total = min 5 total := by omega
  rw [startState, initCounters]
  rw [h, hmm]
  simp

theorem inv_startState (total : Nat) : Inv total (startState total) := by
  rw [startState_eq]
  refine ⟨?_, ?_, ?_, ?_, ?_, ?_, ?_, ?_⟩
  · show total - min 5 total + min 5 total + 0 + 0 + 0 + 0 = total
    omega
  · show min 5 total + 0 ≤ 5
    omega
  · intro _; rfl
  · intro c g hm; cases hm
  · intro c q p d r hm; cases hm
  · intro c v hm; cases hm
  · show List.Chain' (fun a b => a ≤ b) (progressValues [] ++ [computeProgress 0 0 total])
    simp [progressValues]
  · intro c hm; cases hm

theorem dispatchNext_fields (s : RState) :
    (dispatchNext s).stopFlag = s.stopFlag ∧
    (dispatchNext s).log = s.log ∧
    (dispatchNext s).cs.processing = s.cs.processing ∧
    (dispatchNext s).cs.processed = s.cs.processed ∧
    (dispatchNext s).cs.failed = s.cs.failed ∧
    (dispatchNext s).cs.unrecorded = s.cs.unrecorded ∧
    (dispatchNext s).cs.queued + (dispatchNext s).cs.pendingStart
      = s.cs.queued + s.cs.pendingStart ∧
    (dispatchNext s).cs.pendingStart ≤ s.cs.pendingStart + 1 ∧
    (dispatchNext s).cs.queued ≤ s.cs.queued := by
  unfold dispatchNext
  split
  · exact ⟨rfl, rfl, rfl, rfl, rfl, rfl, rfl, by omega, le_refl _⟩
  · next h =>
    push_neg at h
    have hq := h.1
    refine ⟨rfl, rfl, rfl, rfl, rfl, rfl, ?_, ?_, ?_⟩
    · show s.cs.queued - 1 + (s.cs.pendingStart + 1) = s.cs.queued + s.cs.pendingStart
      omega
    · show s.cs.pendingStart + 1 ≤ s.cs.pendingStart + 1
      omega
    · show s.cs.queued - 1 ≤ s.cs.queued
      omega

theorem inv_step {total : Nat} {s s' : RState} {e : Ev}
    (st : Step total s e s') (inv : Inv total s) : Inv total s' := by
  have hsum := inv.sumEq
  rw [Counters.sumAll] at hsum
  cases st with
  | workerStart h1 h2 =>
    refine ⟨?_, ?_, ?_, inv.logSum, inv.statsOk, inv.progOk, inv.progChain, inv.noFin⟩
    · show s.cs.queued + (s.cs.pendingStart - 1) + (s.cs.processing + 1) +
        s.cs.processed + s.cs.failed + s.cs.unrecorded = total
      omega
    · show s.cs.pendingStart - 1 + (s.cs.processing + 1) ≤ 5
      have := inv.poolBound
      omega
    · exact inv.unrecStop
  | workerOk h1 h2 =>
    obtain ⟨f1, f2, f3, f4, f5, f6, f7, f8, f9⟩ :=
      dispatchNext_fields { s with cs := finishedUpdate s.cs }
    have hpb := inv.poolBound
    have g1 : (okResult s).stopFlag = s.stopFlag := f1
    have g2 : (okResult s).log = s.log := f2
    have g3 : (okResult s).cs.processing = s.cs.processing - 1 := f3
    have g4 : (okResult s).cs.processed = s.cs.processed + 1 := f4
    have g5 : (okResult s).cs.failed = s.cs.failed := f5
    have g6 : (okResult s).cs.unrecorded = s.cs.unrecorded := f6
    have g7 : (okResult s).cs.queued + (okResult s).cs.pendingStart
        = s.cs.queued + s.cs.pendingStart := f7
    have g8 : (okResult s).cs.pendingStart ≤ s.cs.pendingStart + 1 := f8
    refine ⟨?_, ?_, ?_, ?_, ?_, ?_, ?_, ?_⟩
    · show (okResult s).cs.queued + (okResult s).cs.pendingStart +
        (okResult s).cs.processing + (okResult s).cs.processed +
        (okResult s).cs.failed + (okResult s).cs.unrecorded = total
      omega
    · show (okResult s).cs.pendingStart + (okResult s).cs.processing ≤ 5
      omega
    · intro h
      rw [g1] at h
      rw [g6]
      exact inv.unrecStop h
    · rw [g2]; exact inv.logSum
    · rw [g2]; exact inv.statsOk
    · rw [g2]; exact inv.progOk
    · rw [g2, g4, g5]
      exact chainLE_replaceLast (computeProgress_mono total (by omega)) inv.progChain
    · rw [g2]; exact inv.noFin
  | workerErr msg h1 h2 =>
    obtain ⟨f1, f2, f3, f4, f5, f6, f7, f8, f9⟩ :=
      dispatchNext_fields { s with
        cs := errorUpdate s.cs,
        log := s.log ++ [(errorUpdate s.cs, Sig.errorSig msg)] }
    have hpb := inv.poolBound
    have g1 : (errResult s msg).stopFlag = s.stopFlag := f1
    have hlog : (errResult s msg).log = s.log ++ [(errorUpdate s.cs, Sig.errorSig msg)] := f2
    have g3 : (errResult s msg).cs.processing = s.cs.processing - 1 := f3
    have g4 : (errResult s msg).cs.processed = s.cs.processed := f4
    have g5 : (errResult s msg).cs.failed = s.cs.failed + 1 := f5
    have g6 : (errResult s msg).cs.unrecorded = s.cs.unrecorded := f6
    have g7 : (errResult s msg).cs.queued + (errResult s msg).cs.pendingStart
        = s.cs.queued + s.cs.pendingStart := f7
    have g8 : (errResult s msg).cs.pendingStart ≤ s.cs.pendingStart + 1 := f8
    refine ⟨?_, ?_, ?_, ?_, ?_, ?_, ?_, ?_⟩
    · show (errResult s msg).cs.queued + (errResult s msg).cs.pendingStart +
        (errResult s msg).cs.processing + (errResult s msg).cs.processed +
        (errResult s msg).cs.failed + (errResult s msg).cs.unrecorded = total
      omega
    · show (errResult s msg).cs.pendingStart + (errResult s msg).cs.processing ≤ 5
      omega
    · intro h
      rw [g1] at h
      rw [g6]
      exact inv.unrecStop h
    · rw [hlog]
      intro c g hm
      rcases List.mem_append.mp hm with hm | hm
      · exact inv.logSum c g hm
      · simp only [List.mem_singleton, Prod.mk.injEq] at hm
        rw [hm.1]
        show s.cs.queued + s.cs.pendingStart + (s.cs.processing - 1) +
          s.cs.processed + (s.cs.failed + 1) + s.cs.unrecorded = total
        omega
    · rw [hlog]
      intro c q p d r hm
      rcases List.mem_append.mp hm with hm | hm
      · exact inv.statsOk c q p d r hm
      · simp at hm
    · rw [hlog]
      intro c v hm
      rcases List.mem_append.mp hm with hm | hm
      · exact inv.progOk c v hm
      · simp at hm
    · rw [hlog, g4, g5, progressValues_append]
      have hone : progressValues [(errorUpdate s.cs, Sig.errorSig msg)] = [] := by
        simp [progressValues]
      rw [hone, List.append_nil]
      exact chainLE_replaceLast (computeProgress_mono total (by omega)) inv.progChain
    · rw [hlog]
      intro c hm
      rcases List.mem_append.mp hm with hm | hm
      · exact inv.noFin c hm
      · simp at hm
  | poll elapsed hg h1 he =>
    have hlog : (pollResult total s elapsed).log = s.log ++
        [(s.cs, Sig.statsSig s.cs.queued s.cs.processing s.cs.processed
            (computeRate s.cs.processed elapsed)),
         (s.cs, Sig.progressSig (computeProgress s.cs.processed s.cs.failed total))] := rfl
    refine ⟨inv.sumEq, inv.poolBound, inv.unrecStop, ?_, ?_, ?_, ?_, ?_⟩
    · rw [hlog]
      intro c g hm
      rcases List.mem_append.mp hm with hm | hm
      · exact inv.logSum c g hm
      · simp only [List.mem_cons, List.mem_singleton, Prod.mk.injEq] at hm
        rcases hm with ⟨hc, _⟩ | ⟨hc, _⟩ | hm
        · rw [hc]; exact inv.sumEq
        · rw [hc]; exact inv.sumEq
        · cases hm
    · rw [hlog]
      intro c q p d r hm
      rcases List.mem_append.mp hm with hm | hm
      · exact inv.statsOk c q p d r hm
      · simp only [List.mem_cons] at hm
        rcases hm with h | h | h
        · rw [Prod.mk.injEq] at h
          obtain ⟨hc, hsig⟩ := h
          rw [Sig.statsSig.injEq] at hsig
          obtain ⟨hq, hp, hd, hr⟩ := hsig
          subst hc
          subst hq
          subst hp
          subst hd
          exact ⟨rfl, rfl, rfl, inv.unrecStop h1, ⟨elapsed, he, hr⟩⟩
        · rw [Prod.mk.injEq] at h
          exact absurd h.2 (by simp)
        · cases h
    · rw [hlog]
      intro c v hm
      rcases List.mem_append.mp hm with hm | hm
      · exact inv.progOk c v hm
      · simp only [List.mem_cons] at hm
        rcases hm with h | h | h
        · rw [Prod.mk.injEq] at h
          exact absurd h.2 (by simp)
        · rw [Prod.mk.injEq] at h
          obtain ⟨hc, hsig⟩ := h
          rw [Sig.progressSig.injEq] at hsig
          subst hc
          rw [hsig]
        · cases h
    · rw [hlog, progressValues_append]
      have htwo : progressValues
          [(s.cs, Sig.statsSig s.cs.queued s.cs.processing s.cs.processed
              (computeRate s.cs.processed elapsed)),
           (s.cs, Sig.progressSig (computeProgress s.cs.processed s.cs.failed total))]
          = [computeProgress s.cs.processed s.cs.failed total] := by
        simp [progressValues]
      rw [htwo]
      show List.Chain' (fun a b => a ≤ b) (progressValues s.log ++
        [computeProgress s.cs.processed s.cs.failed total] ++
        [computeProgress s.cs.processed s.cs.failed total])
      exact chainLE_snoc (le_refl _) inv.progChain
    · rw [hlog]
      intro c hm
      rcases List.mem_append.mp hm with hm | hm
      · exact inv.noFin c hm
      · simp at hm
  | stop =>
    refine ⟨inv.sumEq, inv.poolBound, ?_, inv.logSum, inv.statsOk, inv.progOk,
      inv.progChain, inv.noFin⟩
    intro h
    simp [stopResult] at h
  | drainStart h1 h2 =>
    refine ⟨?_, ?_, ?_, inv.logSum, inv.statsOk, inv.progOk, inv.progChain, inv.noFin⟩
    · show s.cs.queued + (s.cs.pendingStart - 1) + s.cs.processing +
        s.cs.processed + s.cs.failed + (s.cs.unrecorded + 1) = total
      omega
    · show s.cs.pendingStart - 1 + s.cs.processing ≤ 5
      have := inv.poolBound
      omega
    · intro h
      have h' : s.stopFlag = false := h
      rw [h1] at h'
      exact Bool.noConfusion h'
  | drainProc h1 h2 =>
    refine ⟨?_, ?_, ?_, inv.logSum, inv.statsOk, inv.progOk, inv.progChain, inv.noFin⟩
    · show s.cs.queued + s.cs.pendingStart + (s.cs.processing - 1) +
        s.cs.processed + s.cs.failed + (s.cs.unrecorded + 1) = total
      omega
    · show s.cs.pendingStart + (s.cs.processing - 1) ≤ 5
      have := inv.poolBound
      omega
    · intro h
      have h' : s.stopFlag = false := h
      rw [h1] at h'
      exact Bool.noConfusion h'

theorem inv_steps {total : Nat} {s t : RState}
    (h : Steps total s t) (inv : Inv total s) : Inv total t := by
  induction h with
  | refl => exact inv
  | tail h st ih => exact inv_step st ih

theorem inv_reachable {total : Nat} {s : RState} (h : Reachable total s) :
    Inv total s :=
  inv_steps h (inv_startState total)

theorem postSteps_to_steps {total : Nat} {s t : RState}
    (h : PostSteps total s t) : Steps total s t := by
  induction h with
  | refl => exact Steps.refl _
  | tail h st hp ih => exact Steps.tail ih st

theorem steps_trans {total : Nat} {s t u : RState}
    (h1 : Steps total s t) (h2 : Steps total t u) : Steps total s u := by
  induction h2 with
  | refl => exact h1
  | tail h st ih => exact Steps.tail ih st

theorem step_stop_mono {total : Nat} {s s' : RState} {e : Ev}
    (st : Step total s e s') (h : s.stopFlag = true) : s'.stopFlag = true := by
  cases st with
  | workerStart h1 h2 => rw [h1] at h; exact Bool.noConfusion h
  | workerOk h1 h2 => rw [h1] at h; exact Bool.noConfusion h
  | workerErr msg h1 h2 => rw [h1] at h; exact Bool.noConfusion h
  | poll elapsed hg h1 he => rw [h1] at h; exact Bool.noConfusion h
  | stop => rfl
  | drainStart h1 h2 => exact h
  | drainProc h1 h2 => exact h

theorem steps_stop_mono {total : Nat} {s t : RState}
    (h : Steps total s t) (hs : s.stopFlag = true) : t.stopFlag = true := by
  induction h with
  | refl => exact hs
  | tail h st ih => exact step_stop_mono st ih

theorem steps_stop_back {total : Nat} {s t : RState}
    (h : Steps total s t) (ht : t.stopFlag = false) : s.stopFlag = false := by
  cases hsf : s.stopFlag
  · rfl
  · rw [steps_stop_mono h hsf] at ht
    exact Bool.noConfusion ht

theorem step_queued_le {total : Nat} {s s' : RState} {e : Ev}
    (st : Step total s e s') : s'.cs.queued ≤ s.cs.queued := by
  cases st with
  | workerStart h1 h2 => exact le_refl _
  | workerOk h1 h2 =>
    exact (dispatchNext_fields { s with cs := finishedUpdate s.cs }).2.2.2.2.2.2.2.2
  | workerErr msg h1 h2 =>
    exact (dispatchNext_fields { s with
      cs := errorUpdate s.cs,
      log := s.log ++ [(errorUpdate s.cs, Sig.errorSig msg)] }).2.2.2.2.2.2.2.2
  | poll elapsed hg h1 he => exact le_refl _
  | stop => exact le_refl _
  | drainStart h1 h2 => exact le_refl _
  | drainProc h1 h2 => exact le_refl _

theorem steps_queued_le {total : Nat} {s t : RState}
    (h : Steps total s t) : t.cs.queued ≤ s.cs.queued := by
  induction h with
  | refl => exact le_refl _
  | tail h st ih => exact le_trans (step_queued_le st) ih

/-- Once the stop flag is observed, no step changes the queue, the recorded
terminal counters, or the emission log: the only remaining activity is
dispatched or in-flight workers draining to their (unrecorded) end. -/
theorem step_stopped {total : Nat} {s s' : RState} {e : Ev}
    (st : Step total s e s') (h : s.stopFlag = true) :
    s'.cs.queued = s.cs.queued ∧ s'.cs.processed = s.cs.processed ∧
    s'.cs.failed = s.cs.failed ∧
    s'.cs.pendingStart + s'.cs.processing + s'.cs.unrecorded
      = s.cs.pendingStart + s.cs.processing + s.cs.unrecorded ∧
    s'.log = s.log ∧ s'.stopFlag = true := by
  cases st with
  | workerStart h1 h2 => rw [h1] at h; exact Bool.noConfusion h
  | workerOk h1 h2 => rw [h1] at h; exact Bool.noConfusion h
  | workerErr msg h1 h2 => rw [h1] at h; exact Bool.noConfusion h
  | poll elapsed hg h1 he => rw [h1] at h; exact Bool.noConfusion h
  | stop => exact ⟨rfl, rfl, rfl, rfl, rfl, rfl⟩
  | drainStart h1 h2 =>
    refine ⟨rfl, rfl, rfl, ?_, rfl, h⟩
    show s.cs.pendingStart - 1 + s.cs.processing + (s.cs.unrecorded + 1)
      = s.cs.pendingStart + s.cs.processing + s.cs.unrecorded
    omega
  | drainProc h1 h2 =>
    refine ⟨rfl, rfl, rfl, ?_, rfl, h⟩
    show s.cs.pendingStart + (s.cs.processing - 1) + (s.cs.unrecorded + 1)
      = s.cs.pendingStart + s.cs.processing + s.cs.unrecorded
    omega

theorem steps_stopped {total : Nat} {s t : RState}
    (h : Steps total s t) (hs : s.stopFlag = true) :
    t.cs.queued = s.cs.queued ∧ t.cs.processed = s.cs.processed ∧
    t.cs.failed = s.cs.failed ∧
    t.cs.pendingStart + t.cs.processing + t.cs.unrecorded
      = s.cs.pendingStart + s.cs.processing + s.cs.unrecorded ∧
    t.log = s.log ∧ t.stopFlag = true := by
  induction h with
  | refl => exact ⟨rfl, rfl, rfl, rfl, rfl, hs⟩
  | tail h st ih =>
    obtain ⟨i1, i2, i3, i4, i5, i6⟩ := ih
    obtain ⟨j1, j2, j3, j4, j5, j6⟩ := step_stopped st i6
    exact ⟨j1.trans i1, j2.trans i2, j3.trans i3, j4.trans i4, j5.trans i5, j6⟩

/-- In a complete run that was never cancelled, the state read by the final
emissions satisfies the invariant, has an empty queue (every file was
dispatched) and nothing unrecorded; pendingStart and processing may still be
non-zero, since waitForDone does not flush the main-thread handler queue. -/
theorem completeRun_noStop_final {total : Nat} {sF : RState} {elapsed : ℚ}
    (hc : CompleteRun total sF elapsed) (hns : sF.stopFlag = false) :
    ∃ sDone : RState, sF = finalEmissions total sDone elapsed ∧
      Inv total sDone ∧ Reachable total sDone ∧
      sDone.stopFlag = false ∧ sDone.cs.queued = 0 ∧
      sDone.cs.unrecorded = 0 := by
  obtain ⟨he, sExit, sDone, hre, hexit, hpost, hflush, hfin⟩ := hc
  have hstepsED : Steps total sExit sDone := postSteps_to_steps hpost
  have hreD : Reachable total sDone := steps_trans hre hstepsED
  have hinvD : Inv total sDone := inv_reachable hreD
  have hDstop : sDone.stopFlag = false := by
    have : (finalEmissions total sDone elapsed).stopFlag = sDone.stopFlag := rfl
    rw [hfin] at hns
    rw [this] at hns
    exact hns
  have hEstop : sExit.stopFlag = false := steps_stop_back hstepsED hDstop
  have hEq : sExit.cs.queued = 0 := by
    rcases hexit with hx | hx
    · rw [hx] at hEstop; exact Bool.noConfusion hEstop
    · exact hx.2
  have hDq : sDone.cs.queued = 0 := by
    have := steps_queued_le hstepsED
    omega
  have hDu : sDone.cs.unrecorded = 0 := hinvD.unrecStop hDstop
  exact ⟨sDone, hfin, hinvD, hreD, hDstop, hDq, hDu⟩

theorem dispatchNext_dispatches (s : RState) (hq : s.cs.queued ≠ 0)
    (hs : s.stopFlag = false) :
    (dispatchNext s).cs.queued = s.cs.queued - 1 ∧
    (dispatchNext s).cs.pendingStart = s.cs.pendingStart + 1 := by
  unfold dispatchNext
  rw [if_neg]
  · exact ⟨rfl, rfl⟩
  · push_neg
    refine ⟨hq, ?_⟩
    rw [hs]
    exact fun hh => Bool.noConfusion hh

/-- C2 counterexample: with 6 input files, the 5 initial dispatches of
main.py lines 155-157 decrement queued to 1 while no started handler has run
yet (processing = 0); the first loop iteration then emits a snapshot whose
queued + in-flight + completed + failed is 1, not 6. -/
theorem statsSum_cex :
    Reachable 6 (pollResult 6 (startState 6) 0) ∧
    (pollResult 6 (startState 6) 0).log =
      [(⟨1, 5, 0, 0, 0, 0⟩, Sig.statsSig 1 0 0 0),
       (⟨1, 5, 0, 0, 0, 0⟩, Sig.progressSig 0)] ∧
    (⟨1, 5, 0, 0, 0, 0⟩ : Counters).queued + (⟨1, 5, 0, 0, 0, 0⟩ : Counters).processing
      + (⟨1, 5, 0, 0, 0, 0⟩ : Counters).processed
      + (⟨1, 5, 0, 0, 0, 0⟩ : Counters).failed ≠ 6 := by
  refine ⟨?_, by decide, by decide⟩
  exact Steps.tail (Steps.refl _)
    (Step.poll (startState 6) 0 (Or.inr (by decide)) (by decide) (le_refl 0))

/-- C2 as amended: at every snapshot emitted during a run that is never
cancelled, queued + dispatched-but-not-yet-started + in-flight + completed +
failed equals the total file count (the payload itself omits both the failed
count and the dispatched-but-not-yet-started count). -/
theorem statsSum_amended {total : Nat} {sF : RState} {elapsed : ℚ}
    (hc : CompleteRun total sF elapsed) (hns : sF.stopFlag = false) :
    ∀ c q p d r, (c, Sig.statsSig q p d r) ∈ sF.log →
      c.queued + c.pendingStart + c.processing + c.processed + c.failed = total := by
  obtain ⟨sDone, hfin, hinv, _, hDstop, hDq, hDu⟩ :=
    completeRun_noStop_final hc hns
  have hsum := hinv.sumEq
  rw [Counters.sumAll] at hsum
  intro c q p d r hm
  rw [hfin, finalEmissions_log, if_pos hDstop] at hm
  rcases List.mem_append.mp hm with hm | hm
  · rcases List.mem_append.mp hm with hm | hm
    · have h1 := hinv.logSum c (Sig.statsSig q p d r) hm
      have h2 := (hinv.statsOk c q p d r hm).2.2.2.1
      rw [Counters.sumAll] at h1
      omega
    · simp only [List.mem_cons] at hm
      rcases hm with h | h | h
      · rw [Prod.mk.injEq] at h
        exact absurd h.2 (by simp)
      · rw [Prod.mk.injEq] at h
        rw [h.1]
        omega
      · cases h
  · simp only [List.mem_singleton] at hm
    rw [Prod.mk.injEq] at hm
    exact absurd hm.2 (by simp)

/-- C2 amended witness run: one file, dispatched, started and completed, then
the final emissions. -/
theorem statsSum_amended_witness :
    CompleteRun 1 (finalEmissions 1 (okResult ⟨⟨0, 0, 1, 0, 0, 0⟩, false, []⟩) 1) 1 ∧
    (∀ c q p d r, (c, Sig.statsSig q p d r) ∈
        (finalEmissions 1 (okResult ⟨⟨0, 0, 1, 0, 0, 0⟩, false, []⟩) 1).log →
      c.queued + c.pendingStart + c.processing + c.processed + c.failed = 1) := by
  have hrun : CompleteRun 1 (finalEmissions 1 (okResult ⟨⟨0, 0, 1, 0, 0, 0⟩, false, []⟩) 1) 1 := by
    refine ⟨by norm_num, startState 1,
      okResult (⟨⟨0, 0, 1, 0, 0, 0⟩, false, []⟩ : RState), Steps.refl _,
      Or.inr (by decide), ?_, fun _ => ⟨by decide, by decide⟩, rfl⟩
    have h1 : Step 1 (startState 1) Ev.workerStartEv
        (⟨⟨0, 0, 1, 0, 0, 0⟩, false, []⟩ : RState) := by
      have h0 : Step 1 (startState 1) Ev.workerStartEv (startedRes (startState 1)) :=
        Step.workerStart (startState 1) (by decide) (by decide)
      have he : startedRes (startState 1)
          = (⟨⟨0, 0, 1, 0, 0, 0⟩, false, []⟩ : RState) := by decide
      rw [he] at h0
      exact h0
    have h2 : Step 1 (⟨⟨0, 0, 1, 0, 0, 0⟩, false, []⟩ : RState)
        Ev.workerOkEv
        (okResult (⟨⟨0, 0, 1, 0, 0, 0⟩, false, []⟩ : RState)) :=
      Step.workerOk _ rfl (by decide)
    exact PostSteps.tail (PostSteps.tail (PostSteps.refl _) h1 rfl) h2 rfl
  exact ⟨hrun, statsSum_amended hrun rfl⟩

/-- C3: the number of in-flight files never exceeds the bound 5 that main.py
hard-codes (setMaxThreadCount(5), line 105, and min(5, queued), line 155),
and whenever a worker reaches a terminal state (finished or error handler)
while the queue is non-empty and the stop flag has not been observed, the
next queued file is dispatched (handed to the pool). -/
theorem concurrencyBound_and_dispatchOnFree :
    (∀ (total : Nat) (s : RState), Reachable total s → s.cs.processing ≤ 5) ∧
    (∀ (total : Nat) (s s' : RState) (e : Ev), Step total s e s' →
      (e = Ev.workerOkEv ∨ ∃ m, e = Ev.workerErrEv m) →
      s.stopFlag = false → 0 < s.cs.queued →
      s'.cs.queued = s.cs.queued - 1 ∧ s'.cs.pendingStart = s.cs.pendingStart + 1) := by
  constructor
  · intro total s hr
    have := (inv_reachable hr).poolBound
    omega
  · intro total s s' e st he hs hq
    cases st with
    | workerStart h1 h2 =>
      rcases he with h | ⟨m, h⟩ <;> exact Ev.noConfusion h
    | workerOk h1 h2 =>
      exact dispatchNext_dispatches { s with cs := finishedUpdate s.cs }
        (show s.cs.queued ≠ 0 from by omega) hs
    | workerErr msg h1 h2 =>
      exact dispatchNext_dispatches { s with
          cs := errorUpdate s.cs,
          log := s.log ++ [(errorUpdate s.cs, Sig.errorSig msg)] }
        (show s.cs.queued ≠ 0 from by omega) hs
    | poll elapsed hg h1 he2 =>
      rcases he with h | ⟨m, h⟩ <;> exact Ev.noConfusion h
    | stop =>
      rcases he with h | ⟨m, h⟩ <;> exact Ev.noConfusion h
    | drainStart h1 h2 =>
      rcases he with h | ⟨m, h⟩ <;> exact Ev.noConfusion h
    | drainProc h1 h2 =>
      rcases he with h | ⟨m, h⟩ <;> exact Ev.noConfusion h

/-- C3 witness: the bound at a reachable state of a 7-file run, and a
concrete completion with one file queued that dispatches it. -/
theorem concurrencyBound_witness :
    (startState 7).cs.processing ≤ 5 ∧
    ((okResult ⟨⟨1, 0, 1, 0, 0, 0⟩, false, []⟩).cs.queued = 0 ∧
     (okResult ⟨⟨1, 0, 1, 0, 0, 0⟩, false, []⟩).cs.pendingStart = 1) := by
  constructor
  · exact concurrencyBound_and_dispatchOnFree.1 7 (startState 7) (Steps.refl _)
  · exact concurrencyBound_and_dispatchOnFree.2 7
      ⟨⟨1, 0, 1, 0, 0, 0⟩, false, []⟩ _ Ev.workerOkEv
      (Step.workerOk _ rfl (by decide)) (Or.inl rfl) rfl (by decide)

/-- The concrete one-file run used as a witness scenario: the file is
dispatched at start, its worker starts and completes, then the final
emissions happen.  No cancellation occurs. -/
theorem oneFileRun_complete :
    CompleteRun 1 (finalEmissions 1 (okResult ⟨⟨0, 0, 1, 0, 0, 0⟩, false, []⟩) 1) 1 := by
  refine ⟨by norm_num, startState 1, okResult ⟨⟨0, 0, 1, 0, 0, 0⟩, false, []⟩,
    Steps.refl _, Or.inr (by decide), ?_, fun _ => ⟨by decide, by decide⟩, rfl⟩
  have h1 : Step 1 (startState 1) Ev.workerStartEv
      (⟨⟨0, 0, 1, 0, 0, 0⟩, false, []⟩ : RState) := by
    have h0 : Step 1 (startState 1) Ev.workerStartEv (startedRes (startState 1)) :=
      Step.workerStart (startState 1) (by decide) (by decide)
    have he : startedRes (startState 1)
        = (⟨⟨0, 0, 1, 0, 0, 0⟩, false, []⟩ : RState) := by decide
    rw [he] at h0
    exact h0
  have h2 : Step 1 (⟨⟨0, 0, 1, 0, 0, 0⟩, false, []⟩ : RState)
      Ev.workerOkEv (okResult ⟨⟨0, 0, 1, 0, 0, 0⟩, false, []⟩) :=
    Step.workerOk _ rfl (by decide)
  exact PostSteps.tail (PostSteps.tail (PostSteps.refl _) h1 rfl) h2 rfl

/-- The concrete one-file cancelled run: the file is dispatched at start,
stop() is called before its worker runs, the worker then drains with its
handlers disconnected, and the final emissions happen. -/
theorem oneFileRun_stopped :
    CompleteRun 1 (finalEmissions 1 (drainStartRes (stopResult (startState 1))) 0) 0 :=
  ⟨by norm_num, stopResult (startState 1), drainStartRes (stopResult (startState 1)),
    Steps.tail (Steps.refl _) (Step.stop (startState 1)), Or.inl rfl,
    PostSteps.tail (PostSteps.refl _)
      (Step.drainStart (stopResult (startState 1)) rfl (by decide)) rfl,
    fun _ => ⟨by decide, by decide⟩, rfl⟩

/-- C4 counterexample: in the cancelled one-file run the whole emission trace
is a progress value 0 and the snapshot (0, 0, 0, 0): the file that was
dispatched and then drained unrecorded is accounted neither as queued, nor
completed, nor failed (processed + failed = 0 but total = 1), and no
terminal event of any kind (finished or a distinct stopped one) is emitted. -/
theorem cancel_cex :
    CompleteRun 1 (finalEmissions 1 (drainStartRes (stopResult (startState 1))) 0) 0 ∧
    (finalEmissions 1 (drainStartRes (stopResult (startState 1))) 0).log =
      [(⟨0, 0, 0, 0, 0, 1⟩, Sig.progressSig 0),
       (⟨0, 0, 0, 0, 0, 1⟩, Sig.statsSig 0 0 0 0)] ∧
    (finalEmissions 1 (drainStartRes (stopResult (startState 1))) 0).cs.processed
      + (finalEmissions 1 (drainStartRes (stopResult (startState 1))) 0).cs.failed = 0 ∧
    Sig.finishedSig ∉
      ((finalEmissions 1 (drainStartRes (stopResult (startState 1))) 0).log.map Prod.snd) :=
  ⟨oneFileRun_stopped, by decide, by decide, by decide⟩

/-- C4 as amended: after the stop flag is observed no step dispatches a
queued file or changes the recorded completed and failed counters
(already-dispatched workers only drain to an unrecorded termination), and a
cancelled complete run still emits a final snapshot, which hard-codes queued
and in-flight to 0 and carries the completed count frozen at cancellation,
while the finished event is suppressed and no distinct stopped event is
emitted. -/
theorem cancel_amended :
    (∀ (total : Nat) (s s' : RState) (e : Ev), Step total s e s' →
      s.stopFlag = true →
      s'.cs.queued = s.cs.queued ∧ s'.cs.processed = s.cs.processed ∧
      s'.cs.failed = s.cs.failed ∧
      s'.cs.pendingStart + s'.cs.processing + s'.cs.unrecorded
        = s.cs.pendingStart + s.cs.processing + s.cs.unrecorded) ∧
    (∀ (total : Nat) (sF : RState) (elapsed : ℚ), CompleteRun total sF elapsed →
      sF.stopFlag = true →
      sF.cs.pendingStart = 0 ∧ sF.cs.processing = 0 ∧
      (∃ pre, sF.log = pre ++
        [(sF.cs, Sig.progressSig (finalProgressValue total sF.cs)),
         (sF.cs, Sig.statsSig 0 0 sF.cs.processed (computeRate sF.cs.processed elapsed))]) ∧
      (∀ c, (c, Sig.finishedSig) ∉ sF.log)) := by
  constructor
  · intro total s s' e st h
    obtain ⟨j1, j2, j3, j4, _, _⟩ := step_stopped st h
    exact ⟨j1, j2, j3, j4⟩
  · intro total sF elapsed hc hstop
    obtain ⟨he, sExit, sDone, hre, hexit, hpost, hflush, hfin⟩ := hc
    have hinvD : Inv total sDone :=
      inv_reachable (steps_trans hre (postSteps_to_steps hpost))
    have hDstop : sDone.stopFlag = true := by
      rw [hfin] at hstop
      exact hstop
    have hpend : sDone.cs.pendingStart = 0 := (hflush hDstop).1
    have hproc : sDone.cs.processing = 0 := (hflush hDstop).2
    have hlog : sF.log = sDone.log ++
        [(sDone.cs, Sig.progressSig (finalProgressValue total sDone.cs)),
         (sDone.cs, Sig.statsSig 0 0 sDone.cs.processed
            (computeRate sDone.cs.processed elapsed))] := by
      rw [hfin, finalEmissions_log, if_neg (by rw [hDstop]; exact fun hh => Bool.noConfusion hh)]
      rw [List.append_nil]
    have hcs : sF.cs = sDone.cs := by rw [hfin]; exact rfl
    refine ⟨by rw [hcs]; exact hpend, by rw [hcs]; exact hproc, ⟨sDone.log, ?_⟩, ?_⟩
    · rw [hlog, hcs]
    · intro c hm
      rw [hlog] at hm
      rcases List.mem_append.mp hm with hm | hm
      · exact hinvD.noFin c hm
      · simp only [List.mem_cons] at hm
        rcases hm with h | h | h
        · rw [Prod.mk.injEq] at h
          exact absurd h.2 (by simp)
        · rw [Prod.mk.injEq] at h
          exact absurd h.2 (by simp)
        · cases h

/-- C4 amended witness: the frozen-counter step fact at a concrete stopped
state, and the final-trace facts for the concrete cancelled one-file run. -/
theorem cancel_amended_witness :
    ((drainStartRes (stopResult (startState 1))).cs.queued
        = (stopResult (startState 1)).cs.queued ∧
      (drainStartRes (stopResult (startState 1))).cs.processed
        = (stopResult (startState 1)).cs.processed ∧
      (drainStartRes (stopResult (startState 1))).cs.failed
        = (stopResult (startState 1)).cs.failed ∧
      (drainStartRes (stopResult (startState 1))).cs.pendingStart
          + (drainStartRes (stopResult (startState 1))).cs.processing
          + (drainStartRes (stopResult (startState 1))).cs.unrecorded
        = (stopResult (startState 1)).cs.pendingStart
          + (stopResult (startState 1)).cs.processing
          + (stopResult (startState 1)).cs.unrecorded) ∧
    ((finalEmissions 1 (drainStartRes (stopResult (startState 1))) 0).cs.pendingStart = 0 ∧
      (finalEmissions 1 (drainStartRes (stopResult (startState 1))) 0).cs.processing = 0 ∧
      (∃ pre, (finalEmissions 1 (drainStartRes (stopResult (startState 1))) 0).log = pre ++
        [((finalEmissions 1 (drainStartRes (stopResult (startState 1))) 0).cs,
            Sig.progressSig (finalProgressValue 1
              (finalEmissions 1 (drainStartRes (stopResult (startState 1))) 0).cs)),
         ((finalEmissions 1 (drainStartRes (stopResult (startState 1))) 0).cs,
            Sig.statsSig 0 0
              (finalEmissions 1 (drainStartRes (stopResult (startState 1))) 0).cs.processed
              (computeRate
                (finalEmissions 1 (drainStartRes (stopResult (startState 1))) 0).cs.processed
                0))]) ∧
      (∀ c, (c, Sig.finishedSig) ∉
        (finalEmissions 1 (drainStartRes (stopResult (startState 1))) 0).log)) := by
  constructor
  · exact cancel_amended.1 1 _ _ Ev.drainStartEv
      (Step.drainStart (stopResult (startState 1)) rfl (by decide)) rfl
  · exact cancel_amended.2 1 _ 0 oneFileRun_stopped rfl

theorem computeProgress_eq_100_iff {p f total : Nat} (hpos : 0 < total)
    (hle : p + f ≤ total) : computeProgress p f total = 100 ↔ p + f = total := by
  unfold computeProgress
  constructor
  · intro h
    have h100 : 100 ≤ (p + f) * 100 / total := le_of_eq h.symm
    have hmul : 100 * total ≤ (p + f) * 100 := (Nat.le_div_iff_mul_le hpos).mp h100
    have : total ≤ p + f := by
      have := Nat.le_of_mul_le_mul_right (by
        calc total * 100 = 100 * total := Nat.mul_comm total 100
          _ ≤ (p + f) * 100 := hmul) (by norm_num : 0 < 100)
      exact this
    omega
  · intro h
    rw [h]
    exact Nat.mul_div_cancel_left 100 hpos

/-- The state reached in a 3-file run in which two files complete with their
handler invocations delivered, one poll happens in between, and the third
file's worker has been dispatched to the pool but its started handler has not
yet been processed by the main thread. -/
def c5cexDone : RState :=
  okResult (pollResult 3 (startedRes (okResult (startedRes (startState 3)))) 0)

/-- The final state of that run: the loop guard of main.py line 160 ignores
dispatched-but-unstarted files, so the loop exits; waitForDone returns once
the pool threads are done, but the third file's handler invocations are still
queued on the main thread, so line 180 reads processed + failed = 2 of 3. -/
def c5cexF : RState := finalEmissions 3 c5cexDone 0

theorem c5cexDone_reachable : Reachable 3 c5cexDone := by
  have s1 : Steps 3 (startState 3) (startedRes (startState 3)) :=
    Steps.tail (Steps.refl _) (Step.workerStart (startState 3) (by decide) (by decide))
  have s2 : Steps 3 (startState 3) (okResult (startedRes (startState 3))) :=
    Steps.tail s1 (Step.workerOk (startedRes (startState 3)) (by decide) (by decide))
  have s3 : Steps 3 (startState 3)
      (startedRes (okResult (startedRes (startState 3)))) :=
    Steps.tail s2 (Step.workerStart (okResult (startedRes (startState 3)))
      (by decide) (by decide))
  have s4 : Steps 3 (startState 3)
      (pollResult 3 (startedRes (okResult (startedRes (startState 3)))) 0) :=
    Steps.tail s3 (Step.poll (startedRes (okResult (startedRes (startState 3)))) 0
      (Or.inl (by decide)) (by decide) (le_refl 0))
  exact Steps.tail s4 (Step.workerOk
    (pollResult 3 (startedRes (okResult (startedRes (startState 3)))) 0)
    (by decide) (by decide))

theorem c5cexF_run : CompleteRun 3 c5cexF 0 := by
  refine ⟨le_refl 0, c5cexDone, c5cexDone, c5cexDone_reachable, Or.inr (by decide),
    PostSteps.refl _, ?_, rfl⟩
  intro h
  exact absurd h (by decide)

/-- C5 counterexample: a never-cancelled complete 3-file run in which the
statistics loop observes processing = 0 and an empty queue while the third
file's started handler is still pending, so the final read of main.py
line 180 sees processed + failed = 2 of 3: the run emits the progress
sequence [33, 0] — not monotone and never reaching 100 although no
cancellation occurred — and the final emitted value 0 also differs from
int((2/3)*100) = 66, so the claimed formula, the monotonicity and the
reaching-100 property all fail on the code. -/
theorem progress_cex :
    CompleteRun 3 c5cexF 0 ∧ c5cexF.stopFlag = false ∧
    progressValues c5cexF.log = [33, 0] ∧
    ¬ List.Chain' (fun a b => a ≤ b) (progressValues c5cexF.log) ∧
    100 ∉ progressValues c5cexF.log ∧
    (c5cexF.cs, Sig.progressSig 0) ∈ c5cexF.log ∧
    computeProgress c5cexF.cs.processed c5cexF.cs.failed 3 = 66 := by
  refine ⟨c5cexF_run, by decide, by decide, ?_, by decide, by decide, by decide⟩
  have he : progressValues c5cexF.log = [33, 0] := by decide
  rw [he]
  intro h
  exact absurd (List.chain'_cons.mp h).1 (by omega)

/-- C5 as amended: every progress value emitted by the statistics loop equals
int((completed + failed) / total * 100) over the recorded counters at its
emission and is 100 exactly when every file has a recorded terminal state;
the polling-loop progress sequence is monotone non-decreasing; and when every
terminal handler has been recorded by the time the final emissions read the
counters (pendingStart = processing = 0), a never-cancelled run ends with
completed + failed = total, a monotone overall progress sequence, and the
final progress value 100 followed by the final snapshot and the finished
event.  Without that flush, line 180 emits 0 after possibly larger values
(see the counterexample). -/
theorem progress_amended :
    (∀ (total : Nat) (s : RState), Reachable total s → 0 < total →
      ∀ c v, (c, Sig.progressSig v) ∈ s.log →
        v = computeProgress c.processed c.failed total ∧
        (v = 100 ↔ c.processed + c.failed = total)) ∧
    (∀ (total : Nat) (s : RState), Reachable total s →
      List.Chain' (fun a b => a ≤ b) (progressValues s.log)) ∧
    (∀ (total : Nat) (sF : RState) (elapsed : ℚ), CompleteRun total sF elapsed →
      sF.stopFlag = false → 0 < total →
      sF.cs.pendingStart = 0 → sF.cs.processing = 0 →
      sF.cs.processed + sF.cs.failed = total ∧
      List.Chain' (fun a b => a ≤ b) (progressValues sF.log) ∧
      (∃ pre r, sF.log = pre ++
        [(sF.cs, Sig.progressSig 100),
         (sF.cs, Sig.statsSig 0 0 sF.cs.processed r),
         (sF.cs, Sig.finishedSig)])) := by
  refine ⟨?_, ?_, ?_⟩
  · intro total s hr hpos c v hm
    have hinv := inv_reachable hr
    have h1 := hinv.progOk c v hm
    have h2 := hinv.logSum c (Sig.progressSig v) hm
    rw [Counters.sumAll] at h2
    exact ⟨h1, h1 ▸ computeProgress_eq_100_iff hpos (by omega)⟩
  · intro total s hr
    exact (List.chain'_append.mp (inv_reachable hr).progChain).1
  · intro total sF elapsed hc hns hpos hpend hproc
    obtain ⟨sDone, hfin, hinv, _, hDstop, hDq, hDu⟩ := completeRun_noStop_final hc hns
    have hcs : sF.cs = sDone.cs := by rw [hfin]; exact rfl
    have hDpend : sDone.cs.pendingStart = 0 := by rw [hcs] at hpend; exact hpend
    have hDproc : sDone.cs.processing = 0 := by rw [hcs] at hproc; exact hproc
    have hsum := hinv.sumEq
    rw [Counters.sumAll] at hsum
    have hDpf : sDone.cs.processed + sDone.cs.failed = total := by omega
    have hfv : finalProgressValue total sDone.cs = 100 := by
      unfold finalProgressValue
      rw [if_pos hDpf]
    have hcp : computeProgress sDone.cs.processed sDone.cs.failed total = 100 := by
      unfold computeProgress
      rw [hDpf]
      exact Nat.mul_div_cancel_left 100 hpos
    have hlog : sF.log = sDone.log ++
        [(sDone.cs, Sig.progressSig 100),
         (sDone.cs, Sig.statsSig 0 0 sDone.cs.processed
            (computeRate sDone.cs.processed elapsed)),
         (sDone.cs, Sig.finishedSig)] := by
      rw [hfin, finalEmissions_log, if_pos hDstop, hfv]
      simp [List.append_assoc]
    refine ⟨by rw [hcs]; exact hDpf, ?_, ?_⟩
    · rw [hlog]
      have hpv : progressValues (sDone.log ++
          [(sDone.cs, Sig.progressSig 100),
           (sDone.cs, Sig.statsSig 0 0 sDone.cs.processed
              (computeRate sDone.cs.processed elapsed)),
           (sDone.cs, Sig.finishedSig)]) = progressValues sDone.log ++ [100] := by
        rw [progressValues_append]
        simp [progressValues]
      rw [hpv]
      have hch := hinv.progChain
      rw [hcp] at hch
      exact hch
    · exact ⟨sDone.log, computeRate sDone.cs.processed elapsed, by rw [hlog, hcs]⟩

/-- C5 amended witness: a mid-run progress fact at the reachable state of the
3-file scenario, the monotone value sequence there, and the flushed-final
facts of the concrete successful one-file run. -/
theorem progress_amended_witness :
    ((33 : Nat) = computeProgress (⟨0, 1, 1, 1, 0, 0⟩ : Counters).processed
        (⟨0, 1, 1, 1, 0, 0⟩ : Counters).failed 3 ∧
      ((33 : Nat) = 100 ↔ (⟨0, 1, 1, 1, 0, 0⟩ : Counters).processed
        + (⟨0, 1, 1, 1, 0, 0⟩ : Counters).failed = 3)) ∧
    List.Chain' (fun a b => a ≤ b) (progressValues c5cexDone.log) ∧
    ((finalEmissions 1 (okResult ⟨⟨0, 0, 1, 0, 0, 0⟩, false, []⟩) 1).cs.processed +
        (finalEmissions 1 (okResult ⟨⟨0, 0, 1, 0, 0, 0⟩, false, []⟩) 1).cs.failed = 1 ∧
      List.Chain' (fun a b => a ≤ b)
        (progressValues (finalEmissions 1 (okResult ⟨⟨0, 0, 1, 0, 0, 0⟩, false, []⟩) 1).log) ∧
      (∃ pre r, (finalEmissions 1 (okResult ⟨⟨0, 0, 1, 0, 0, 0⟩, false, []⟩) 1).log = pre ++
        [((finalEmissions 1 (okResult ⟨⟨0, 0, 1, 0, 0, 0⟩, false, []⟩) 1).cs,
            Sig.progressSig 100),
         ((finalEmissions 1 (okResult ⟨⟨0, 0, 1, 0, 0, 0⟩, false, []⟩) 1).cs,
            Sig.statsSig 0 0
              (finalEmissions 1 (okResult ⟨⟨0, 0, 1, 0, 0, 0⟩, false, []⟩) 1).cs.processed r),
         ((finalEmissions 1 (okResult ⟨⟨0, 0, 1, 0, 0, 0⟩, false, []⟩) 1).cs,
            Sig.finishedSig)])) :=
  ⟨progress_amended.1 3 c5cexDone c5cexDone_reachable (by norm_num)
      ⟨0, 1, 1, 1, 0, 0⟩ 33 (by decide),
   progress_amended.2.1 3 c5cexDone c5cexDone_reachable,
   progress_amended.2.2 1 _ 1 oneFileRun_complete rfl (by norm_num) (by decide) (by decide)⟩

theorem countStats_append (l1 l2 : List (Counters × Sig)) :
    countStats (l1 ++ l2) = countStats l1 + countStats l2 := by
  simp [countStats, List.filter_append]

/-- C6 counterexample: in the complete one-file run the statistics loop guard
(processing > 0 or queue non-empty, main.py line 160) is already false after
the initial dispatch, so the loop body never runs: the whole run emits exactly
one stats snapshot (the final one of line 183), although the run performed a
dispatch transition and a completion transition (processed = 1). -/
theorem statsPerTransition_cex :
    CompleteRun 1 (finalEmissions 1 (okResult ⟨⟨0, 0, 1, 0, 0, 0⟩, false, []⟩) 1) 1 ∧
    (finalEmissions 1 (okResult ⟨⟨0, 0, 1, 0, 0, 0⟩, false, []⟩) 1).cs.processed = 1 ∧
    countStats (finalEmissions 1 (okResult ⟨⟨0, 0, 1, 0, 0, 0⟩, false, []⟩) 1).log = 1 :=
  ⟨oneFileRun_complete, by decide, by decide⟩

/-- C6 as amended: snapshots are not tied to state transitions: a worker
dispatch, start, completion or failure emits no snapshot; exactly one
snapshot is emitted per iteration of the 0.1-second polling loop, plus
exactly one more by the final emissions at run end. -/
theorem statsPerTransition_amended :
    (∀ (total : Nat) (s s' : RState) (e : Ev), Step total s e s' →
      (∀ q, e ≠ Ev.pollEv q) → countStats s'.log = countStats s.log) ∧
    (∀ (total : Nat) (s s' : RState) (q : ℚ), Step total s (Ev.pollEv q) s' →
      countStats s'.log = countStats s.log + 1) ∧
    (∀ (total : Nat) (s : RState) (elapsed : ℚ),
      countStats (finalEmissions total s elapsed).log = countStats s.log + 1) := by
  refine ⟨?_, ?_, ?_⟩
  · intro total s s' e st hp
    cases st with
    | workerStart h1 h2 => rfl
    | workerOk h1 h2 =>
      rw [show (okResult s).log = s.log from
        (dispatchNext_fields { s with cs := finishedUpdate s.cs }).2.1]
    | workerErr msg h1 h2 =>
      rw [show (errResult s msg).log = s.log ++ [(errorUpdate s.cs, Sig.errorSig msg)] from
        (dispatchNext_fields _).2.1]
      rw [countStats_append]
      have : countStats [(errorUpdate s.cs, Sig.errorSig msg)] = 0 := by
        simp [countStats]
      rw [this]
      omega
    | poll elapsed hg h1 he => exact absurd rfl (hp elapsed)
    | stop => rfl
    | drainStart h1 h2 => rfl
    | drainProc h1 h2 => rfl
  · intro total s s' q st
    cases st with
    | poll hg h1 he =>
      show countStats (s.log ++
        [(s.cs, Sig.statsSig s.cs.queued s.cs.processing s.cs.processed
            (computeRate s.cs.processed q)),
         (s.cs, Sig.progressSig (computeProgress s.cs.processed s.cs.failed total))])
        = countStats s.log + 1
      rw [countStats_append]
      have : countStats
          [(s.cs, Sig.statsSig s.cs.queued s.cs.processing s.cs.processed
              (computeRate s.cs.processed q)),
           (s.cs, Sig.progressSig (computeProgress s.cs.processed s.cs.failed total))] = 1 := by
        simp [countStats]
      rw [this]
  · intro total s elapsed
    rw [finalEmissions_log, countStats_append, countStats_append]
    have h1 : countStats
        [(s.cs, Sig.progressSig (finalProgressValue total s.cs)),
         (s.cs, Sig.statsSig 0 0 s.cs.processed (computeRate s.cs.processed elapsed))] = 1 := by
      simp [countStats]
    have h2 : countStats
        (if s.stopFlag = false then [(s.cs, Sig.finishedSig)] else []) = 0 := by
      split
      · simp [countStats]
      · simp [countStats]
    rw [h1, h2]

/-- C6 amended witness: concrete instances of the three parts — a completion
step, a poll step and a final emission, each with its snapshot count. -/
theorem statsPerTransition_witness :
    countStats (okResult ⟨⟨0, 0, 1, 0, 0, 0⟩, false, []⟩).log
      = countStats (⟨⟨0, 0, 1, 0, 0, 0⟩, false, []⟩ : RState).log ∧
    countStats (pollResult 6 (startState 6) 0).log = countStats (startState 6).log + 1 ∧
    countStats (finalEmissions 1 (okResult ⟨⟨0, 0, 1, 0, 0, 0⟩, false, []⟩) 1).log
      = countStats (okResult ⟨⟨0, 0, 1, 0, 0, 0⟩, false, []⟩).log + 1 := by
  refine ⟨?_, ?_, ?_⟩
  · exact statsPerTransition_amended.1 1 _ _ Ev.workerOkEv
      (Step.workerOk _ rfl (by decide)) (fun q => by exact fun hh => Ev.noConfusion hh)
  · exact statsPerTransition_amended.2.1 6 _ _ 0
      (Step.poll (startState 6) 0 (Or.inr (by decide)) (by decide) (le_refl 0))
  · exact statsPerTransition_amended.2.2 1 _ 1

/-- The two concrete two-file runs used for the C7 counterexample. -/
def c7stateA : RState :=
  pollResult 2 (startedRes (errResult (startedRes (startState 2)) "boom")) 0

def c7stateB : RState := pollResult 2 (startedRes (startState 2)) 0

theorem c7stateA_reachable : Reachable 2 c7stateA := by
  have s1 : Steps 2 (startState 2) (startedRes (startState 2)) :=
    Steps.tail (Steps.refl _) (Step.workerStart (startState 2) (by decide) (by decide))
  have s2 : Steps 2 (startState 2) (errResult (startedRes (startState 2)) "boom") :=
    Steps.tail s1 (Step.workerErr (startedRes (startState 2)) "boom" (by decide) (by decide))
  have s3 : Steps 2 (startState 2)
      (startedRes (errResult (startedRes (startState 2)) "boom")) :=
    Steps.tail s2 (Step.workerStart (errResult (startedRes (startState 2)) "boom")
      (by decide) (by decide))
  exact Steps.tail s3 (Step.poll (startedRes (errResult (startedRes (startState 2)) "boom")) 0
    (Or.inl (by decide)) (by decide) (le_refl 0))

theorem c7stateB_reachable : Reachable 2 c7stateB := by
  have s1 : Steps 2 (startState 2) (startedRes (startState 2)) :=
    Steps.tail (Steps.refl _) (Step.workerStart (startState 2) (by decide) (by decide))
  exact Steps.tail s1 (Step.poll (startedRes (startState 2)) 0
    (Or.inl (by decide)) (by decide) (le_refl 0))

/-- C7 counterexample: two reachable runs of 2 files emit the identical
stats_updated payload (0, 1, 0, 0) although one has failed = 1 and the other
failed = 0 at the moment of emission: the four-value payload of main.py
line 95 does not carry the failed count, so the claimed five-field snapshot
does not exist. -/
theorem statsFields_cex :
    Reachable 2 c7stateA ∧ Reachable 2 c7stateB ∧
    c7stateA.log =
      [(⟨0, 1, 0, 0, 1, 0⟩, Sig.errorSig "boom"),
       (⟨0, 0, 1, 0, 1, 0⟩, Sig.statsSig 0 1 0 0),
       (⟨0, 0, 1, 0, 1, 0⟩, Sig.progressSig 50)] ∧
    c7stateB.log =
      [(⟨0, 1, 1, 0, 0, 0⟩, Sig.statsSig 0 1 0 0),
       (⟨0, 1, 1, 0, 0, 0⟩, Sig.progressSig 0)] ∧
    (⟨0, 0, 1, 0, 1, 0⟩ : Counters).failed = 1 ∧
    (⟨0, 1, 1, 0, 0, 0⟩ : Counters).failed = 0 :=
  ⟨c7stateA_reachable, c7stateB_reachable, by decide, by decide, rfl, rfl⟩

/-- C7 as amended: every mid-run snapshot carries exactly the four payload
values (queued, in-flight, completed, rate) of the emission state, where rate
is completed / elapsed when elapsed > 0 and 0 otherwise, hence 0 whenever no
completion has happened yet; the failed count is not part of the payload. -/
theorem statsFields_amended {total : Nat} {s : RState} (hr : Reachable total s) :
    ∀ c q p d r, (c, Sig.statsSig q p d r) ∈ s.log →
      q = c.queued ∧ p = c.processing ∧ d = c.processed ∧
      (∃ e : ℚ, 0 ≤ e ∧ r = computeRate d e) ∧ (d = 0 → r = 0) := by
  have hinv := inv_reachable hr
  intro c q p d r hm
  obtain ⟨h1, h2, h3, _, e, he0, her⟩ := hinv.statsOk c q p d r hm
  refine ⟨h1, h2, h3, ⟨e, he0, her⟩, ?_⟩
  intro hd
  rw [her, hd]
  unfold computeRate
  split
  · simp
  · rfl

/-- C7 amended witness: the payload facts at the concrete reachable state of
a 2-file run with one snapshot in its trace. -/
theorem statsFields_witness :
    Reachable 2 c7stateB ∧
    (∀ c q p d r, (c, Sig.statsSig q p d r) ∈ c7stateB.log →
      q = c.queued ∧ p = c.processing ∧ d = c.processed ∧
      (∃ e : ℚ, 0 ≤ e ∧ r = computeRate d e) ∧ (d = 0 → r = 0)) :=
  ⟨c7stateB_reachable, statsFields_amended c7stateB_reachable⟩

/-- C8: a file whose unit of work raises at any step emits exactly one error
signal, carrying the file name and the exception text in its message
(main.py lines 75-77); the error handler records exactly one Failed
transition for that file and, when the queue is non-empty and no cancellation
was observed, dispatches the next file, so the run continues; and in a
never-cancelled complete run no file is lost: the queue is empty and every
file is either recorded terminal or awaiting only the delivery of its
already-emitted handler invocation, so that once those deliveries are
recorded, completed + failed = total regardless of failures. -/
theorem perFileError_spec :
    (∀ (name : String) (k : Fin 5) (cause : String),
      runSignals name (WOutcome.raiseAt k cause)
        = [WSig.startedSig, WSig.errSig (workerErrorMsg name cause)] ∧
      ((runSignals name (WOutcome.raiseAt k cause)).filter
        (fun g => match g with | WSig.errSig _ => true | _ => false)).length = 1 ∧
      (∃ pre post, workerErrorMsg name cause = pre ++ name ++ post) ∧
      (∃ pre2, workerErrorMsg name cause = pre2 ++ cause)) ∧
    (∀ (total : Nat) (s s' : RState) (msg : String),
      Step total s (Ev.workerErrEv msg) s' →
      s'.cs.failed = s.cs.failed + 1 ∧
      (s.stopFlag = false → 0 < s.cs.queued → s'.cs.queued = s.cs.queued - 1)) ∧
    (∀ (total : Nat) (sF : RState) (elapsed : ℚ), CompleteRun total sF elapsed →
      sF.stopFlag = false →
      sF.cs.queued = 0 ∧
      sF.cs.processed + sF.cs.failed + sF.cs.pendingStart + sF.cs.processing = total ∧
      (sF.cs.pendingStart = 0 → sF.cs.processing = 0 →
        sF.cs.processed + sF.cs.failed = total)) := by
  refine ⟨?_, ?_, ?_⟩
  · intro name k cause
    refine ⟨rfl, rfl, ?_, ?_⟩
    · exact ⟨"处理文件 ", " 时出错: " ++ cause,
        String.append_assoc ("处理文件 " ++ name) " 时出错: " cause⟩
    · exact ⟨"处理文件 " ++ name ++ " 时出错: ", rfl⟩
  · intro total s s' msg st
    cases st with
    | workerErr h1 h2 =>
      constructor
      · exact (dispatchNext_fields { s with
          cs := errorUpdate s.cs,
          log := s.log ++ [(errorUpdate s.cs, Sig.errorSig msg)] }).2.2.2.2.1
      · intro hs hq
        exact (dispatchNext_dispatches { s with
            cs := errorUpdate s.cs,
            log := s.log ++ [(errorUpdate s.cs, Sig.errorSig msg)] }
          (show s.cs.queued ≠ 0 from by omega) hs).1
  · intro total sF elapsed hc hns
    obtain ⟨sDone, hfin, hinv, _, hDstop, hDq, hDu⟩ := completeRun_noStop_final hc hns
    have hsum := hinv.sumEq
    rw [Counters.sumAll] at hsum
    have hcs : sF.cs = sDone.cs := by rw [hfin]; exact rfl
    rw [hcs]
    refine ⟨hDq, by omega, ?_⟩
    intro hp hq2
    omega

/-- C8 witness: the error emissions for a concrete file and cause, a concrete
error step for a state with one in-flight and one queued file, and the
terminal accounting of the concrete complete one-file run. -/
theorem perFileError_witness :
    (runSignals "photo.jpg" (WOutcome.raiseAt 2 "decode failed")
      = [WSig.startedSig, WSig.errSig (workerErrorMsg "photo.jpg" "decode failed")] ∧
      ((runSignals "photo.jpg" (WOutcome.raiseAt 2 "decode failed")).filter
        (fun g => match g with | WSig.errSig _ => true | _ => false)).length = 1 ∧
      (∃ pre post, workerErrorMsg "photo.jpg" "decode failed" = pre ++ "photo.jpg" ++ post) ∧
      (∃ pre2, workerErrorMsg "photo.jpg" "decode failed" = pre2 ++ "decode failed")) ∧
    ((errResult ⟨⟨1, 0, 1, 0, 0, 0⟩, false, []⟩ "boom").cs.failed = 1 ∧
      (errResult ⟨⟨1, 0, 1, 0, 0, 0⟩, false, []⟩ "boom").cs.queued = 0) ∧
    ((finalEmissions 1 (okResult ⟨⟨0, 0, 1, 0, 0, 0⟩, false, []⟩) 1).cs.queued = 0 ∧
      (finalEmissions 1 (okResult ⟨⟨0, 0, 1, 0, 0, 0⟩, false, []⟩) 1).cs.processed
        + (finalEmissions 1 (okResult ⟨⟨0, 0, 1, 0, 0, 0⟩, false, []⟩) 1).cs.failed
        + (finalEmissions 1 (okResult ⟨⟨0, 0, 1, 0, 0, 0⟩, false, []⟩) 1).cs.pendingStart
        + (finalEmissions 1 (okResult ⟨⟨0, 0, 1, 0, 0, 0⟩, false, []⟩) 1).cs.processing = 1 ∧
      ((finalEmissions 1 (okResult ⟨⟨0, 0, 1, 0, 0, 0⟩, false, []⟩) 1).cs.pendingStart = 0 →
        (finalEmissions 1 (okResult ⟨⟨0, 0, 1, 0, 0, 0⟩, false, []⟩) 1).cs.processing = 0 →
        (finalEmissions 1 (okResult ⟨⟨0, 0, 1, 0, 0, 0⟩, false, []⟩) 1).cs.processed
          + (finalEmissions 1 (okResult ⟨⟨0, 0, 1, 0, 0, 0⟩, false, []⟩) 1).cs.failed = 1)) := by
  refine ⟨perFileError_spec.1 "photo.jpg" 2 "decode failed", ?_, ?_⟩
  · have h := perFileError_spec.2.1 1 ⟨⟨1, 0, 1, 0, 0, 0⟩, false, []⟩
      (errResult ⟨⟨1, 0, 1, 0, 0, 0⟩, false, []⟩ "boom") "boom"
      (Step.workerErr _ "boom" rfl (by decide))
    exact ⟨h.1, (h.2 rfl (by decide))⟩
  · exact perFileError_spec.2.2 1 _ 1 oneFileRun_complete rfl

/-- C9 counterexample: when the chain-processing operation raises,
ImageWorker.run jumps to the except block (main.py lines 75-77), which
performs no container operation: close is never called on the error path,
so the pixel buffer is not explicitly released. -/
theorem workerClose_cex :
    runActions (WOutcome.raiseAt 2 "processing failed")
      = [CAction.openC, CAction.setFocalC] ∧
    CAction.closeC ∉ runActions (WOutcome.raiseAt 2 "processing failed") :=
  ⟨by decide, by decide⟩

/-- C9 as amended: close is called exactly once, as the last container
operation of the success path, after save; on a failure at any operation no
close completes, and the except path performs no close either. -/
theorem workerClose_amended :
    runActions WOutcome.allOk
      = [CAction.openC, CAction.setFocalC, CAction.processC, CAction.saveC,
         CAction.closeC] ∧
    (∀ (k : Fin 5) (msg : String),
      CAction.closeC ∉ runActions (WOutcome.raiseAt k msg)) := by
  constructor
  · rfl
  · intro k msg
    fin_cases k <;> simp [runActions, workerActionSeq]

/-- C10: a run over an empty file list emits exactly the finished event:
no processor chain is built, no statistics snapshot and no progress value is
emitted (main.py lines 119-121), and such a run does exist for every
configuration. -/
theorem emptyRun_spec :
    (∀ (cfg : Config) (chain : Option (List Processor)) (log : List (Counters × Sig)),
      RunTrace cfg 0 chain log →
        chain = none ∧ log = [(initCounters 0, Sig.finishedSig)] ∧
        countStats log = 0 ∧ progressValues log = []) ∧
    (∀ cfg : Config, RunTrace cfg 0 none [(initCounters 0, Sig.finishedSig)]) := by
  constructor
  · intro cfg chain log ht
    cases ht with
    | empty => exact ⟨rfl, rfl, by decide, by decide⟩
    | nonempty h hc => exact absurd h (by norm_num)
  · intro cfg
    exact RunTrace.empty

/-- C10 witness: the empty run of a concrete configuration. -/
theorem emptyRun_witness :
    RunTrace ⟨"watermark", false, false, false, false, 90⟩ 0 none
      [(initCounters 0, Sig.finishedSig)] ∧
    ((none : Option (List Processor)) = none ∧
      [(initCounters 0, Sig.finishedSig)] = [(initCounters 0, Sig.finishedSig)] ∧
      countStats [(initCounters 0, Sig.finishedSig)] = 0 ∧
      progressValues [(initCounters 0, Sig.finishedSig)] = []) :=
  ⟨RunTrace.empty,
    emptyRun_spec.1 ⟨"watermark", false, false, false, false, 90⟩ none _ RunTrace.empty⟩

end Copyleft

